import Mathlib

/-!
Shallow embedding of the autorename filename-decision engine and config
resolver (src/src/autorename/autorename.py) together with proofs of the
behavioural properties stated about them.

Modelling conventions:
* bytes are `Nat` values `< 256`; file content is a `List Nat`;
* 32-bit machine words are `Nat` with explicit `% 2^32`;
* a directory path is its list of components (`[]` is the root `/`);
* `os.stat` mtime is the number of seconds since the epoch (`Nat`);
* `datetime.datetime.fromtimestamp` without a `tz` argument converts using
  the machine-local UTC offset, which we pass explicitly as `tzOffset`;
* exceptions raised by the config resolver are `Except.error`.
-/

set_option maxRecDepth 100000

namespace Autorename

/-- Characters the Python `re` module treats as whitespace (ASCII part). -/
def isPySpace (c : Char) : Bool :=
  c == ' ' || c == '\t' || c == '\n' || c == '\r' || c == '\x0b' || c == '\x0c'

/-- The regex class `\S`: any non-whitespace character. -/
def isNonSpace (c : Char) : Bool := !isPySpace c

/-- The regex class `\d` (ASCII digits). -/
def isDigitChar (c : Char) : Bool := '0' ≤ c && c ≤ '9'

/-- ASCII lower-casing, as `str.lower` acts on the characters involved here. -/
def lowerChar (c : Char) : Char :=
  if 'A' ≤ c && c ≤ 'Z' then Char.ofNat (c.toNat + 32) else c

/-- `str.lower`. -/
def lowerStr (s : String) : String := ⟨s.data.map lowerChar⟩

/-- `str.endswith`. -/
def strEndsWith (s suf : String) : Bool := suf.data.isSuffixOf s.data

/-- The `EXTENSIONS` list from the source, in order. -/
def EXTENSIONS : List String :=
  ["jpg", "jpeg", "gif", "m4a", "mov", "mp4", "pdf", "png", "webp", "heic",
   "pptx", "docx", "xlsx"]

/-- The extension-classification block of `generate_filename`: the first
`EXTENSIONS` entry `e` with `filename.lower().endswith("." + e)`, then the
manual override mapping any `*.jpeg` to extension `jpg`. -/
def extensionOf (filename : String) : Option String :=
  let fl := lowerStr filename
  let ext := EXTENSIONS.find? (fun e => strEndsWith fl ("." ++ e))
  if strEndsWith fl ".jpeg" then some "jpg" else ext

/-- Anchored match of `re_prefix_day` = `\d\d\d\d-\d\d-\S\S[ ]\S+` against the
start of the filename (`re.match` semantics: every atom is one fixed-width
character class, so a match is exactly the positional checks below). -/
def re_prefix_day_match : List Char → Bool
  | y1 :: y2 :: y3 :: y4 :: s1 :: mo1 :: mo2 :: s2 :: d1 :: d2 :: sp :: c1 :: _ =>
    isDigitChar y1 && isDigitChar y2 && isDigitChar y3 && isDigitChar y4 &&
    s1 == '-' && isDigitChar mo1 && isDigitChar mo2 && s2 == '-' &&
    isNonSpace d1 && isNonSpace d2 && sp == ' ' && isNonSpace c1
  | _ => false

/-- Anchored match of `re_prefix_minute` =
`\d\d\d\d-\d\d-\S\S-\S\S\S\S[ ]\S+` against the start of the filename. -/
def re_prefix_minute_match : List Char → Bool
  | y1 :: y2 :: y3 :: y4 :: s1 :: mo1 :: mo2 :: s2 :: d1 :: d2 :: s3 ::
      h1 :: h2 :: h3 :: h4 :: sp :: c1 :: _ =>
    isDigitChar y1 && isDigitChar y2 && isDigitChar y3 && isDigitChar y4 &&
    s1 == '-' && isDigitChar mo1 && isDigitChar mo2 && s2 == '-' &&
    isNonSpace d1 && isNonSpace d2 && s3 == '-' &&
    isNonSpace h1 && isNonSpace h2 && isNonSpace h3 && isNonSpace h4 &&
    sp == ' ' && isNonSpace c1
  | _ => false

/-- The shape the spec ascribes to the minute-granularity already-named
pattern, written out from the spec's words: the filename begins with four
digits, dash, two digits, dash, two non-space characters, dash, four
non-space characters, a space, then one-or-more non-space characters. -/
def minuteShapeL (l : List Char) : Prop :=
  ∃ (y1 y2 y3 y4 mo1 mo2 d1 d2 k1 k2 k3 k4 c1 : Char) (rest : List Char),
    l = y1 :: y2 :: y3 :: y4 :: '-' :: mo1 :: mo2 :: '-' :: d1 :: d2 :: '-' ::
      k1 :: k2 :: k3 :: k4 :: ' ' :: c1 :: rest ∧
    isDigitChar y1 = true ∧ isDigitChar y2 = true ∧ isDigitChar y3 = true ∧
    isDigitChar y4 = true ∧ isDigitChar mo1 = true ∧ isDigitChar mo2 = true ∧
    isNonSpace d1 = true ∧ isNonSpace d2 = true ∧ isNonSpace k1 = true ∧
    isNonSpace k2 = true ∧ isNonSpace k3 = true ∧ isNonSpace k4 = true ∧
    isNonSpace c1 = true

/-- `minuteShapeL` on a filename's characters. -/
def minuteShapeSpec (s : String) : Prop := minuteShapeL s.data

/-! ## MD5 (hashlib.md5), over byte lists -/

/-- Truncate to a 32-bit word. -/
def w32 (n : Nat) : Nat := n % 4294967296

/-- Bitwise complement of a 32-bit word. -/
def wnot (n : Nat) : Nat := 4294967295 - w32 n

/-- Left-rotation of a 32-bit word. -/
def rotl (x s : Nat) : Nat := w32 (x <<< s) ||| (w32 x >>> (32 - s))

/-- MD5 per-round left-rotation amounts. -/
def md5_s : List Nat :=
  [7, 12, 17, 22, 7, 12, 17, 22, 7, 12, 17, 22, 7, 12, 17, 22,
   5, 9, 14, 20, 5, 9, 14, 20, 5, 9, 14, 20, 5, 9, 14, 20,
   4, 11, 16, 23, 4, 11, 16, 23, 4, 11, 16, 23, 4, 11, 16, 23,
   6, 10, 15, 21, 6, 10, 15, 21, 6, 10, 15, 21, 6, 10, 15, 21]

/-- MD5 round constants `floor(2^32 * abs(sin(i+1)))`. -/
def md5_K : List Nat :=
  [0xd76aa478, 0xe8c7b756, 0x242070db, 0xc1bdceee,
   0xf57c0faf, 0x4787c62a, 0xa8304613, 0xfd469501,
   0x698098d8, 0x8b44f7af, 0xffff5bb1, 0x895cd7be,
   0x6b901122, 0xfd987193, 0xa679438e, 0x49b40821,
   0xf61e2562, 0xc040b340, 0x265e5a51, 0xe9b6c7aa,
   0xd62f105d, 0x02441453, 0xd8a1e681, 0xe7d3fbc8,
   0x21e1cde6, 0xc33707d6, 0xf4d50d87, 0x455a14ed,
   0xa9e3e905, 0xfcefa3f8, 0x676f02d9, 0x8d2a4c8a,
   0xfffa3942, 0x8771f681, 0x6d9d6122, 0xfde5380c,
   0xa4beea44, 0x4bdecfa9, 0xf6bb4b60, 0xbebfbc70,
   0x289b7ec6, 0xeaa127fa, 0xd4ef3085, 0x04881d05,
   0xd9d4d039, 0xe6db99e5, 0x1fa27cf8, 0xc4ac5665,
   0xf4292244, 0x432aff97, 0xab9423a7, 0xfc93a039,
   0x655b59c3, 0x8f0ccc92, 0xffeff47d, 0x85845dd1,
   0x6fa87e4f, 0xfe2ce6e0, 0xa3014314, 0x4e0811a1,
   0xf7537e82, 0xbd3af235, 0x2ad7d2bb, 0xeb86d391]

/-- `count` little-endian bytes of `n`. -/
def leBytes : Nat → Nat → List Nat
  | _, 0 => []
  | n, c + 1 => (n % 256) :: leBytes (n / 256) c

/-- MD5 padding: append `0x80`, zero bytes to 56 mod 64, then the message
bit length as a 64-bit little-endian quantity. -/
def md5pad (msg : List Nat) : List Nat :=
  msg ++ 0x80 :: List.replicate ((119 - msg.length % 64) % 64) 0
      ++ leBytes ((msg.length * 8) % 18446744073709551616) 8

/-- Group bytes into 32-bit little-endian words. -/
def leWords : List Nat → List Nat
  | b0 :: b1 :: b2 :: b3 :: rest =>
    (b0 + 256 * b1 + 65536 * b2 + 16777216 * b3) :: leWords rest
  | _ => []

/-- One MD5 round on state `(a, b, c, d)` with message words `M`. -/
def md5step (M : List Nat) (st : Nat × Nat × Nat × Nat) (i : Nat) :
    Nat × Nat × Nat × Nat :=
  let (a, b, c, d) := st
  let fg : Nat × Nat :=
    if i < 16 then ((b &&& c) ||| (wnot b &&& d), i)
    else if i < 32 then ((d &&& b) ||| (wnot d &&& c), (5 * i + 1) % 16)
    else if i < 48 then (b ^^^ c ^^^ d, (3 * i + 5) % 16)
    else (c ^^^ (b ||| wnot d), (7 * i) % 16)
  let f := w32 (fg.1 + a + md5_K.getD i 0 + M.getD fg.2 0)
  (d, w32 (b + rotl f (md5_s.getD i 0)), b, c)

/-- Process one 64-byte block. -/
def md5block (st : Nat × Nat × Nat × Nat) (block : List Nat) :
    Nat × Nat × Nat × Nat :=
  let M := leWords block
  let r := (List.range 64).foldl (md5step M) st
  (w32 (st.1 + r.1), w32 (st.2.1 + r.2.1),
   w32 (st.2.2.1 + r.2.2.1), w32 (st.2.2.2 + r.2.2.2))

/-- Split a list into 64-element chunks (structural recursion on a fuel
bound; `fuel = l.length` always suffices since each step consumes 64
elements of a nonempty list). -/
def chunks64Aux : Nat → List Nat → List (List Nat)
  | _, [] => []
  | 0, _ => []
  | fuel + 1, l => l.take 64 :: chunks64Aux fuel (l.drop 64)

/-- Split a list into 64-element chunks. -/
def chunks64 (l : List Nat) : List (List Nat) := chunks64Aux l.length l

/-- Hexadecimal digit characters. -/
def hexChar : Nat → Char
  | 0 => '0'
  | 1 => '1'
  | 2 => '2'
  | 3 => '3'
  | 4 => '4'
  | 5 => '5'
  | 6 => '6'
  | 7 => '7'
  | 8 => '8'
  | 9 => '9'
  | 10 => 'a'
  | 11 => 'b'
  | 12 => 'c'
  | 13 => 'd'
  | 14 => 'e'
  | _ => 'f'

/-- Two hex characters of one byte. -/
def byteHexChars (b : Nat) : List Char := [hexChar (b / 16 % 16), hexChar (b % 16)]

/-- The four bytes of a word, little-endian, in hex. -/
def wordHexLE (w : Nat) : List Char :=
  byteHexChars (w % 256) ++ byteHexChars (w / 256 % 256) ++
  byteHexChars (w / 65536 % 256) ++ byteHexChars (w / 16777216 % 256)

/-- `hashlib.md5(content).hexdigest()` as a character list. -/
def md5_hexdigest (msg : List Nat) : List Char :=
  let st := (chunks64 (md5pad msg)).foldl md5block
    (0x67452301, 0xefcdab89, 0x98badcfe, 0x10325476)
  wordHexLE st.1 ++ wordHexLE st.2.1 ++ wordHexLE st.2.2.1 ++ wordHexLE st.2.2.2

/-- `hexdigest()[0:10]`, the hash component of a canonical name. -/
def md5_hash10 (msg : List Nat) : List Char := (md5_hexdigest msg).take 10

/-! ## Civil time (datetime.datetime.fromtimestamp + strftime) -/

/-- Days since 1970-01-01 to `(year, month, day)` (proleptic Gregorian). -/
def civilFromDays (z : Nat) : Nat × Nat × Nat :=
  let z := z + 719468
  let era := z / 146097
  let doe := z - era * 146097
  let yoe := (doe - doe / 1460 + doe / 36524 - doe / 146096) / 365
  let y := yoe + era * 400
  let doy := doe - (365 * yoe + yoe / 4 - yoe / 100)
  let mp := (5 * doy + 2) / 153
  let d := doy - (153 * mp + 2) / 5 + 1
  let m := if mp < 10 then mp + 3 else mp - 9
  (if m ≤ 2 then y + 1 else y, m, d)

structure CivilTime where
  year : Nat
  month : Nat
  day : Nat
  hour : Nat
  minute : Nat
deriving DecidableEq

/-- `datetime.datetime.fromtimestamp(mtime)` at machine-local UTC offset
`tzOffset` (the source passes no `tz`, so the machine's zone applies). -/
def fromtimestamp (mtime : Nat) (tzOffset : Int) : CivilTime :=
  let total := ((mtime : Int) + tzOffset).toNat
  let ymd := civilFromDays (total / 86400)
  { year := ymd.1, month := ymd.2.1, day := ymd.2.2,
    hour := total % 86400 / 3600, minute := total % 86400 % 3600 / 60 }

/-- The UTC offset of the configured `TIMEZONE`
(`zoneinfo.ZoneInfo("America/Los_Angeles")`) at the winter instants used in
the repository's tests: PST, UTC-8. -/
def TIMEZONE_offset : Int := -28800

/-- A digit character. -/
def digitChar : Nat → Char
  | 0 => '0'
  | 1 => '1'
  | 2 => '2'
  | 3 => '3'
  | 4 => '4'
  | 5 => '5'
  | 6 => '6'
  | 7 => '7'
  | 8 => '8'
  | _ => '9'

/-- Decimal digits, structurally recursive on a fuel bound; `fuel = n`
always suffices since `n / 10 < n` for `n ≥ 10`. -/
def natDigitsAux : Nat → Nat → List Char
  | 0, n => [digitChar n]
  | fuel + 1, n =>
    if n < 10 then [digitChar n]
    else natDigitsAux fuel (n / 10) ++ [digitChar (n % 10)]

/-- Decimal digits of a natural number, most significant first. -/
def natDigits (n : Nat) : List Char := natDigitsAux n n

/-- Left-pad with zeros to width `w`. -/
def padZ (w : Nat) (l : List Char) : List Char :=
  List.replicate (w - l.length) '0' ++ l

/-- `%02d`. -/
def fmt2 (n : Nat) : List Char := padZ 2 (natDigits n)

/-- `%04d` (zero-padded year, as `%Y` yields for the representable range). -/
def fmt4 (n : Nat) : List Char := padZ 4 (natDigits n)

/-- `strftime("%Y-%m-%d-")`. -/
def dayStamp (t : CivilTime) : List Char :=
  fmt4 t.year ++ ['-'] ++ fmt2 t.month ++ ['-'] ++ fmt2 t.day ++ ['-']

/-- `strftime("%Y-%m-%d-%H%M-")`. -/
def minuteStamp (t : CivilTime) : List Char :=
  fmt4 t.year ++ ['-'] ++ fmt2 t.month ++ ['-'] ++ fmt2 t.day ++ ['-'] ++
    fmt2 t.hour ++ fmt2 t.minute ++ ['-']

/-! ## Config resolver (get_directory_config) -/

inductive Granularity
  | day
  | minute
deriving DecidableEq

inductive ConfigProblem
  | missingSection
  | missingOption
  | invalidValue (v : String)
deriving DecidableEq

/-- A directory path as its components; `[]` is the filesystem root `/`. -/
abbrev DirPath := List String

/-- The `ValueError` raised for a structurally invalid configuration file,
carrying which file and which problem. -/
structure ConfigError where
  file : DirPath
  problem : ConfigProblem
deriving DecidableEq

/-- The parts of a parsed `.autorename.ini` the resolver inspects:
`none` means no `[autorename]` section; `some none` means the section is
present without the `prefix_timestamp` key; `some (some v)` means the key is
present with value `v`. -/
structure IniConfig where
  autorename? : Option (Option String)
deriving DecidableEq

/-- The filesystem facts the resolver consults. -/
structure FileSystem where
  /-- `os.path.exists dir && os.path.isdir dir`. -/
  isDir : DirPath → Bool
  /-- The parsed `.autorename.ini` inside `dir`, when that file exists. -/
  iniAt : DirPath → Option IniConfig

/-- The upward walk of `get_directory_config`: starting at `dir`, look for
`.autorename.ini`, moving to the parent on a miss; the loop stops when the
root is reached (the root itself is never examined, as in the source's
`while current_dir != "/"`). -/
def findConfigFileAux (fs : FileSystem) : Nat → DirPath → Option (DirPath × IniConfig)
  | _, [] => none
  | 0, _ => none
  | fuel + 1, dir =>
    match fs.iniAt dir with
    | some ini => some (dir, ini)
    | none => findConfigFileAux fs fuel dir.dropLast

/-- See `findConfigFileAux`; `dir.length` steps always reach the root. -/
def findConfigFile (fs : FileSystem) (dir : DirPath) : Option (DirPath × IniConfig) :=
  findConfigFileAux fs dir.length dir

/-- The process-wide `cached_directory_config` dict, as an association list. -/
abbrev ConfigCache := List (DirPath × Option Granularity)

/-- `get_directory_config`, returning the resolved granularity together with
the updated cache; a malformed configuration file is `Except.error`. -/
def get_directory_config (fs : FileSystem) (cache : ConfigCache)
    (target_dir : DirPath) :
    Except ConfigError (Option Granularity × ConfigCache) :=
  match cache.lookup target_dir with
  | some v => .ok (v, cache)
  | none =>
    if fs.isDir target_dir then
      match findConfigFile fs target_dir with
      | none => .ok (none, (target_dir, none) :: cache)
      | some (p, ini) =>
        match ini.autorename? with
        | none => .error ⟨p, .missingSection⟩
        | some none => .error ⟨p, .missingOption⟩
        | some (some v) =>
          if v = "minute" then
            .ok (some .minute, (target_dir, some Granularity.minute) :: cache)
          else if v = "day" then
            .ok (some .day, (target_dir, some Granularity.day) :: cache)
          else .error ⟨p, .invalidValue v⟩
    else .ok (none, cache)

/-! ## Filename decision engine (generate_filename, process_file) -/

/-- Whether the resolved directory configuration selects minute granularity
(the source's `directory_config is not None and
directory_config["prefix_timestamp"] == "minute"`). -/
def isMinuteGrain : Option Granularity → Bool
  | some Granularity.minute => true
  | _ => false

/-- The hash-and-compose step of `generate_filename`: timestamp prefix at
the resolved granularity, first 10 hex characters of the MD5 digest, dot,
canonical extension. -/
def composeName (minuteGrain : Bool) (mtime : Nat) (content : List Nat)
    (ext : String) (tzOffset : Int) : String :=
  let t := fromtimestamp mtime tzOffset
  if minuteGrain then ⟨minuteStamp t ++ md5_hash10 content ++ '.' :: ext.data⟩
  else ⟨dayStamp t ++ md5_hash10 content ++ '.' :: ext.data⟩

/-- `generate_filename`. The configuration lookup result for the containing
directory is passed in as `configResult` (the source calls
`get_directory_config(path)` first, so a raised `ConfigError` propagates
before anything else); `mtime`/`content` stand for the file's stat and
bytes; `tzOffset` is the machine-local UTC offset used by
`fromtimestamp`. -/
def generate_filename (filename : String) (mtime : Nat) (content : List Nat)
    (configResult : Except ConfigError (Option Granularity)) (tzOffset : Int) :
    Except ConfigError (Option String) := do
  let directory_config ← configResult
  match extensionOf filename with
  | none => pure none
  | some extension =>
    let m :=
      if isMinuteGrain directory_config then re_prefix_minute_match filename.data
      else re_prefix_day_match filename.data
    if m then pure none
    else pure (some (composeName (isMinuteGrain directory_config) mtime content
      extension tzOffset))

/-- The decision `process_file` reaches for one file (the filesystem
mutation and logging it then performs are outside the core). -/
inductive RenameDecision
  | delete
  | noAction
  | rename (newName : String)
deriving DecidableEq

/-- The decision logic of `process_file`: the `.DS_Store` override, then
`generate_filename`, then the exact-equality idempotence check. -/
def process_file (filename : String) (mtime : Nat) (content : List Nat)
    (configResult : Except ConfigError (Option Granularity)) (tzOffset : Int) :
    Except ConfigError RenameDecision :=
  if filename = ".DS_Store" then .ok .delete
  else do
    let new? ← generate_filename filename mtime content configResult tzOffset
    match new? with
    | none => pure .noAction
    | some newName =>
      if filename = newName then pure .noAction else pure (.rename newName)

/-- An empty filesystem: no directories exist, no configuration files. -/
def fsEmpty : FileSystem := ⟨fun _ => false, fun _ => none⟩

/-- A filesystem in which every directory exists and `/d` holds an
`.autorename.ini` that lacks the `[autorename]` section. -/
def fsBadSection : FileSystem :=
  ⟨fun _ => true, fun d => if d = ["d"] then some ⟨none⟩ else none⟩

end Autorename

namespace Autorename

/-! ## Character inventory of machine-composed names -/

/-- Characters that can occur in a machine-composed canonical name:
digits, dash, dot, lowercase letters. -/
def goodChar (c : Char) : Bool :=
  isDigitChar c || c == '-' || c == '.' || ('a' ≤ c && c ≤ 'z')

theorem goodChar_digitChar (n : Nat) : goodChar (digitChar n) = true := by
  unfold digitChar
  split <;> decide

theorem goodChar_hexChar (n : Nat) : goodChar (hexChar n) = true := by
  unfold hexChar
  split <;> decide

theorem natDigitsAux_good (fuel : Nat) :
    ∀ n c, c ∈ natDigitsAux fuel n → goodChar c = true := by
  induction fuel with
  | zero =>
    intro n c hc
    simp only [natDigitsAux, List.mem_singleton] at hc
    exact hc ▸ goodChar_digitChar n
  | succ fuel ih =>
    intro n c hc
    simp only [natDigitsAux] at hc
    split at hc
    · simp only [List.mem_singleton] at hc
      exact hc ▸ goodChar_digitChar n
    · rcases List.mem_append.mp hc with h | h
      · exact ih _ _ h
      · simp only [List.mem_singleton] at h
        exact h ▸ goodChar_digitChar _

theorem natDigits_good (n : Nat) : ∀ c ∈ natDigits n, goodChar c = true :=
  natDigitsAux_good n n

theorem padZ_good {l : List Char} (w : Nat)
    (h : ∀ c ∈ l, goodChar c = true) : ∀ c ∈ padZ w l, goodChar c = true := by
  intro c hc
  simp only [padZ] at hc
  rcases List.mem_append.mp hc with h0 | h0
  · rw [List.eq_of_mem_replicate h0]; decide
  · exact h c h0

theorem fmt2_good (n : Nat) : ∀ c ∈ fmt2 n, goodChar c = true :=
  padZ_good 2 (natDigits_good n)

theorem fmt4_good (n : Nat) : ∀ c ∈ fmt4 n, goodChar c = true :=
  padZ_good 4 (natDigits_good n)

theorem dayStamp_good (t : CivilTime) : ∀ c ∈ dayStamp t, goodChar c = true := by
  intro c hc
  simp only [dayStamp, List.mem_append, List.mem_singleton] at hc
  rcases hc with ((((h | h) | h) | h) | h) | h
  · exact fmt4_good _ c h
  · subst h; decide
  · exact fmt2_good _ c h
  · subst h; decide
  · exact fmt2_good _ c h
  · subst h; decide

theorem minuteStamp_good (t : CivilTime) :
    ∀ c ∈ minuteStamp t, goodChar c = true := by
  intro c hc
  simp only [minuteStamp, List.mem_append, List.mem_singleton] at hc
  rcases hc with (((((((h | h) | h) | h) | h) | h) | h) | h) | h
  · exact fmt4_good _ c h
  · subst h; decide
  · exact fmt2_good _ c h
  · subst h; decide
  · exact fmt2_good _ c h
  · subst h; decide
  · exact fmt2_good _ c h
  · exact fmt2_good _ c h
  · subst h; decide

theorem byteHexChars_good (b : Nat) : ∀ c ∈ byteHexChars b, goodChar c = true := by
  intro c hc
  simp only [byteHexChars, List.mem_cons, List.not_mem_nil, or_false] at hc
  rcases hc with h | h <;> exact h ▸ goodChar_hexChar _

theorem wordHexLE_good (w : Nat) : ∀ c ∈ wordHexLE w, goodChar c = true := by
  intro c hc
  simp only [wordHexLE, List.mem_append] at hc
  rcases hc with ((h | h) | h) | h <;> exact byteHexChars_good _ c h

theorem md5_hexdigest_good (msg : List Nat) :
    ∀ c ∈ md5_hexdigest msg, goodChar c = true := by
  intro c hc
  simp only [md5_hexdigest, List.mem_append] at hc
  rcases hc with ((h | h) | h) | h <;> exact wordHexLE_good _ c h

theorem md5_hash10_good (msg : List Nat) :
    ∀ c ∈ md5_hash10 msg, goodChar c = true := fun c hc =>
  md5_hexdigest_good msg c (List.take_subset _ _ hc)

theorem EXTENSIONS_good : ∀ e ∈ EXTENSIONS, ∀ c ∈ e.data, goodChar c = true := by
  decide

theorem extensionOf_mem {f e : String} (h : extensionOf f = some e) :
    e ∈ EXTENSIONS := by
  simp only [extensionOf] at h
  split at h
  · cases h; decide
  · exact List.mem_of_find?_eq_some h

theorem composeName_data (g : Bool) (mtime : Nat) (content : List Nat)
    (ext : String) (tz : Int) :
    (composeName g mtime content ext tz).data =
      (if g then minuteStamp (fromtimestamp mtime tz)
       else dayStamp (fromtimestamp mtime tz)) ++
        md5_hash10 content ++ '.' :: ext.data := by
  cases g <;> rfl

theorem composeName_good {ext : String}
    (hext : ∀ c ∈ ext.data, goodChar c = true) (g : Bool) (mtime : Nat)
    (content : List Nat) (tz : Int) :
    ∀ c ∈ (composeName g mtime content ext tz).data, goodChar c = true := by
  intro c hc
  rw [composeName_data] at hc
  rcases List.mem_append.mp hc with h | h
  · rcases List.mem_append.mp h with h0 | h0
    · cases g
      · exact dayStamp_good _ c h0
      · exact minuteStamp_good _ c h0
    · exact md5_hash10_good _ c h0
  · rcases List.mem_cons.mp h with h0 | h0
    · subst h0; decide
    · exact hext c h0

theorem goodChar_ne_space {c : Char} (h : goodChar c = true) : ¬c = ' ' := by
  intro he
  subst he
  exact absurd h (by decide)

theorem good_no_space {l : List Char} (h : ∀ c ∈ l, goodChar c = true) :
    ' ' ∉ l := fun hs => goodChar_ne_space (h _ hs) rfl

/-! ## The prefix patterns reject names without a space -/

theorem day_match_false_of_no_space {l : List Char} (h : ' ' ∉ l) :
    re_prefix_day_match l = false := by
  cases hm : re_prefix_day_match l with
  | false => rfl
  | true =>
    exfalso
    unfold re_prefix_day_match at hm
    split at hm
    next y1 y2 y3 y4 s1 mo1 mo2 s2 d1 d2 sp c1 rest =>
      simp only [Bool.and_eq_true, beq_iff_eq] at hm
      have hsp : sp = ' ' := by tauto
      subst hsp
      exact h (by simp)
    all_goals simp at hm

theorem minute_match_false_of_no_space {l : List Char} (h : ' ' ∉ l) :
    re_prefix_minute_match l = false := by
  cases hm : re_prefix_minute_match l with
  | false => rfl
  | true =>
    exfalso
    unfold re_prefix_minute_match at hm
    split at hm
    next y1 y2 y3 y4 s1 mo1 mo2 s2 d1 d2 s3 k1 k2 k3 k4 sp c1 rest =>
      simp only [Bool.and_eq_true, beq_iff_eq] at hm
      have hsp : sp = ' ' := by tauto
      subst hsp
      exact h (by simp)
    all_goals simp at hm

theorem minute_match_iff_shape (l : List Char) :
    re_prefix_minute_match l = true ↔ minuteShapeL l := by
  constructor
  · intro hm
    unfold re_prefix_minute_match at hm
    split at hm
    next y1 y2 y3 y4 s1 mo1 mo2 s2 d1 d2 s3 k1 k2 k3 k4 sp c1 rest =>
      simp only [Bool.and_eq_true, beq_iff_eq] at hm
      have hs1 : s1 = '-' := by tauto
      have hs2 : s2 = '-' := by tauto
      have hs3 : s3 = '-' := by tauto
      have hsp : sp = ' ' := by tauto
      subst hs1 hs2 hs3 hsp
      exact ⟨y1, y2, y3, y4, mo1, mo2, d1, d2, k1, k2, k3, k4, c1, rest, rfl,
        by tauto, by tauto, by tauto, by tauto, by tauto, by tauto, by tauto,
        by tauto, by tauto, by tauto, by tauto, by tauto, by tauto⟩
    all_goals simp at hm
  · rintro ⟨y1, y2, y3, y4, mo1, mo2, d1, d2, k1, k2, k3, k4, c1, rest, hl,
      h1, h2, h3, h4, h5, h6, h7, h8, h9, h10, h11, h12, h13⟩
    subst hl
    simp [re_prefix_minute_match, h1, h2, h3, h4, h5, h6, h7, h8, h9, h10,
      h11, h12, h13]

/-! ## Shape of successful generate_filename runs -/

theorem generate_filename_ok_none {filename : String} {mtime : Nat}
    {content : List Nat} {cfg : Option Granularity} {tz : Int}
    (hx : extensionOf filename = none) :
    generate_filename filename mtime content (.ok cfg) tz = .ok none := by
  unfold generate_filename
  simp only [Bind.bind, Except.bind, hx]
  rfl

theorem generate_filename_ok_some_inv {filename : String} {mtime : Nat}
    {content : List Nat} {cfg : Option Granularity} {tz : Int} {n : String}
    (h : generate_filename filename mtime content (.ok cfg) tz = .ok (some n)) :
    ∃ e, extensionOf filename = some e ∧
      n = composeName (isMinuteGrain cfg) mtime content e tz := by
  unfold generate_filename at h
  simp only [Bind.bind, Except.bind] at h
  cases hx : extensionOf filename with
  | none =>
    rw [hx] at h
    exact Option.noConfusion (Except.ok.inj h)
  | some e =>
    rw [hx] at h
    refine ⟨e, rfl, ?_⟩
    cases hb : (if isMinuteGrain cfg then re_prefix_minute_match filename.data
        else re_prefix_day_match filename.data) with
    | true =>
      rw [hb] at h
      exact Option.noConfusion (Except.ok.inj h)
    | false =>
      rw [hb] at h
      exact (Option.some.inj (Except.ok.inj h)).symm

theorem generate_filename_eq_compose {filename e : String} (mtime : Nat)
    (content : List Nat) (cfg : Option Granularity) (tz : Int)
    (hx : extensionOf filename = some e)
    (hday : re_prefix_day_match filename.data = false)
    (hmin : re_prefix_minute_match filename.data = false) :
    generate_filename filename mtime content (.ok cfg) tz =
      .ok (some (composeName (isMinuteGrain cfg) mtime content e tz)) := by
  unfold generate_filename
  simp only [Bind.bind, Except.bind, hx]
  cases hg : isMinuteGrain cfg <;> simp [hg, hday, hmin] <;> rfl

end Autorename

namespace Autorename

theorem not_suffix_jpeg (l : List Char) :
    ¬(['.', 'j', 'p', 'e', 'g'] <:+ (l ++ ['.', 'j', 'p', 'g'])) := by
  intro hB
  have hA : ['.', 'j', 'p', 'g'] <:+ (l ++ ['.', 'j', 'p', 'g']) := ⟨l, rfl⟩
  rcases List.suffix_or_suffix_of_suffix hA hB with h | h
  · exact absurd h (by decide)
  · exact absurd h (by decide)

/-! ## Claims -/

/-- C1: the claim says the date component of a composed name is derived
from the mtime converted to the fixed configured time zone, so the name is
identical on all machines. The code calls
`datetime.datetime.fromtimestamp(mtime_seconds)` without `tz=TIMEZONE`, so
the date follows the machine-local UTC offset: with mtime 1262329200 and
empty content the engine composes `2010-01-01-d41d8cd98f.png` on a UTC
machine but `2009-12-31-d41d8cd98f.png` under the configured Pacific
offset, so the composed name is not machine-independent. -/
theorem C1_date_follows_local_zone :
    generate_filename "file.png" 1262329200 [] (.ok none) 0 =
      .ok (some "2010-01-01-d41d8cd98f.png") ∧
    generate_filename "file.png" 1262329200 [] (.ok none) TIMEZONE_offset =
      .ok (some "2009-12-31-d41d8cd98f.png") ∧
    generate_filename "file.png" 1262329200 [] (.ok none) 0 ≠
      generate_filename "file.png" 1262329200 [] (.ok none) TIMEZONE_offset := by
  have h1 : generate_filename "file.png" 1262329200 [] (.ok none) 0 =
      .ok (some "2010-01-01-d41d8cd98f.png") := rfl
  have h2 : generate_filename "file.png" 1262329200 [] (.ok none)
      TIMEZONE_offset = .ok (some "2009-12-31-d41d8cd98f.png") := rfl
  refine ⟨h1, h2, ?_⟩
  intro h
  rw [h1, h2] at h
  exact absurd (Option.some.inj (Except.ok.inj h)) (by decide)

/-- C2: `decide("/d", "filename.png")` with mtime 1262430245, empty content
and no configuration file: under the configured Pacific offset the engine
composes `2010-01-02-d41d8cd98f.png`, where `d41d8cd98f` is the first 10
hex characters of the MD5 digest of the empty byte sequence and the absent
configuration defaults to day granularity. -/
theorem C2_day_default_compose :
    generate_filename "filename.png" 1262430245 [] (.ok none) TIMEZONE_offset =
      .ok (some "2010-01-02-d41d8cd98f.png") := rfl

/-- C3: idempotence. Whenever the current filename already equals the
canonical name composed for its extension, mtime, content and resolved
granularity, `process_file` decides "no action": the canonical name
contains no space, so neither already-named pattern fires, the engine
recomposes the identical name, and the exact-equality check skips the
rename. -/
theorem C3_idempotent (filename : String) (mtime : Nat) (content : List Nat)
    (cfg : Option Granularity) (tz : Int) (ext : String)
    (hext : extensionOf filename = some ext)
    (hname : filename = composeName (isMinuteGrain cfg) mtime content ext tz) :
    process_file filename mtime content (.ok cfg) tz = .ok .noAction := by
  have hgood : ∀ c ∈ filename.data, goodChar c = true := by
    rw [hname]
    exact composeName_good (EXTENSIONS_good ext (extensionOf_mem hext)) _ _ _ _
  have hsp : ' ' ∉ filename.data := good_no_space hgood
  have hday := day_match_false_of_no_space hsp
  have hmin := minute_match_false_of_no_space hsp
  have hgen := generate_filename_eq_compose mtime content cfg tz hext hday hmin
  have hds : ¬filename = ".DS_Store" := by
    intro h
    have hu : '_' ∈ filename.data := by rw [h]; decide
    exact absurd (hgood _ hu) (by decide)
  unfold process_file
  rw [if_neg hds]
  simp only [Bind.bind, Except.bind, hgen]
  rw [← hname]
  simp only [if_pos rfl]
  rfl

/-- Witness for C3: the spec's scenario 2, the file previously renamed to
`2010-01-02-d41d8cd98f.png` re-decided with the same mtime and content. -/
theorem C3_witness :
    process_file "2010-01-02-d41d8cd98f.png" 1262430245 [] (.ok none)
      TIMEZONE_offset = .ok .noAction :=
  C3_idempotent "2010-01-02-d41d8cd98f.png" 1262430245 [] none TIMEZONE_offset
    "png" rfl rfl

/-- C4: a file named `2022-01-01 foo.png` in a directory resolved to day
granularity (no configuration, or an explicit `day` configuration) is never
renamed, whatever its content and mtime: the day prefix pattern matches and
the engine answers "no action" without consulting the hash. -/
theorem C4_trusted_manual_name (mtime : Nat) (content : List Nat)
    (cfg : Option Granularity) (tz : Int)
    (hcfg : cfg = none ∨ cfg = some Granularity.day) :
    generate_filename "2022-01-01 foo.png" mtime content (.ok cfg) tz =
      .ok none := by
  rcases hcfg with h | h <;> subst h <;> rfl

/-- Witness for C4 at mtime 0, empty content, no configuration. -/
theorem C4_witness :
    generate_filename "2022-01-01 foo.png" 0 [] (.ok none) 0 = .ok none :=
  C4_trusted_manual_name 0 [] none 0 (Or.inl rfl)

/-- C5 counterexample: the claim says extension classification precedes the
granularity lookup, so `file.dat` yields "no action" even under a malformed
configuration file. In the code `get_directory_config(path)` is called
before the extension check, so with `/d` holding an `.autorename.ini` that
lacks the `[autorename]` section the engine propagates the `ConfigError`
for `file.dat` instead of returning "no action". -/
theorem C5_counterexample :
    get_directory_config fsBadSection [] ["d"] =
      .error ⟨["d"], .missingSection⟩ ∧
    generate_filename "file.dat" 0 [] (.error ⟨["d"], .missingSection⟩) 0 =
      .error ⟨["d"], .missingSection⟩ ∧
    generate_filename "file.dat" 0 [] (.error ⟨["d"], .missingSection⟩) 0 ≠
      .ok none :=
  ⟨rfl, rfl, fun h => Except.noConfusion h⟩

/-- C5 amended: for every filename that matches no recognized extension,
the engine returns "no action" under every configuration state that
resolves without error (valid configuration or none found); when the
configuration file is malformed, the `ConfigError` raised by the
granularity lookup propagates instead, because that lookup happens before
extension classification. -/
theorem C5_unsupported_extension (filename : String) (mtime : Nat)
    (content : List Nat) (cfg : Option Granularity) (tz : Int)
    (hext : extensionOf filename = none) :
    generate_filename filename mtime content (.ok cfg) tz = .ok none :=
  generate_filename_ok_none hext

/-- Witness for C5's amended claim at `file.dat`. -/
theorem C5_witness :
    generate_filename "file.dat" 0 [] (.ok none) 0 = .ok none :=
  C5_unsupported_extension "file.dat" 0 [] none 0 rfl

/-- C6: on a cold cache entry, the resolver errors exactly when the target
directory exists and the upward walk finds a configuration file that is
missing the `[autorename]` section, missing the `prefix_timestamp` key, or
carries a value outside day/minute; finding no file caches and returns
`None`; a missing or non-directory target returns `None` without failing. -/
theorem C6_resolver_error_iff (fs : FileSystem) (cache : ConfigCache)
    (target : DirPath) (hc : cache.lookup target = none) :
    ((∃ e, get_directory_config fs cache target = .error e) ↔
      fs.isDir target = true ∧
        ∃ p ini, findConfigFile fs target = some (p, ini) ∧
          (ini.autorename? = none ∨ ini.autorename? = some none ∨
            ∃ v, ini.autorename? = some (some v) ∧ v ≠ "minute" ∧ v ≠ "day")) ∧
    (fs.isDir target = true → findConfigFile fs target = none →
      get_directory_config fs cache target = .ok (none, (target, none) :: cache)) ∧
    (fs.isDir target = false →
      get_directory_config fs cache target = .ok (none, cache)) := by
  refine ⟨?_, ?_, ?_⟩
  · cases hd : fs.isDir target with
    | false => simp [get_directory_config, hc, hd]
    | true =>
      cases hff : findConfigFile fs target with
      | none => simp [get_directory_config, hc, hd, hff]
      | some pi =>
        obtain ⟨p, ini⟩ := pi
        cases hai : ini.autorename? with
        | none =>
          simp [get_directory_config, hc, hd, hff, hai]
          exact ⟨p, ini, ⟨rfl, rfl⟩, Or.inl hai⟩
        | some vo =>
          cases vo with
          | none =>
            simp [get_directory_config, hc, hd, hff, hai]
            exact ⟨p, ini, ⟨rfl, rfl⟩, Or.inr (Or.inl hai)⟩
          | some v =>
            by_cases hv1 : v = "minute"
            · simp [get_directory_config, hc, hd, hff, hai, hv1]
            · by_cases hv2 : v = "day"
              · simp [get_directory_config, hc, hd, hff, hai, hv1, hv2]
              · simp [get_directory_config, hc, hd, hff, hai, hv1, hv2]
                exact ⟨p, ini, ⟨rfl, rfl⟩, Or.inr (Or.inr ⟨v, hai, hv1, hv2⟩)⟩
  · intro hd hff
    simp [get_directory_config, hc, hd, hff]
  · intro hd
    simp [get_directory_config, hc, hd]

/-- Witness for C6: an empty filesystem, empty cache, target `/d`. -/
theorem C6_witness :
    get_directory_config fsEmpty [] ["d"] = .ok (none, []) :=
  (C6_resolver_error_iff fsEmpty [] ["d"] rfl).2.2 rfl

/-- C7: under minute granularity the already-named check fires exactly on
filenames that begin with four digits, dash, two digits, dash, two
non-space characters, dash, four non-space characters, a space, and one or
more non-space characters; every matching filename yields "no action". -/
theorem C7_minute_already_named (s : String) (mtime : Nat) (content : List Nat)
    (tz : Int) :
    (re_prefix_minute_match s.data = true ↔ minuteShapeSpec s) ∧
    (re_prefix_minute_match s.data = true →
      generate_filename s mtime content (.ok (some Granularity.minute)) tz =
        .ok none) := by
  constructor
  · exact minute_match_iff_shape s.data
  · intro hm
    unfold generate_filename
    cases hx : extensionOf s with
    | none =>
      simp only [Bind.bind, Except.bind, hx]
      rfl
    | some e =>
      simp only [Bind.bind, Except.bind, hx, isMinuteGrain, if_true, hm]
      rfl

/-- Witness for C7 on `2022-01-01-1234 a.png` (a spec test vector). -/
theorem C7_witness :
    generate_filename "2022-01-01-1234 a.png" 0 []
      (.ok (some Granularity.minute)) 0 = .ok none :=
  (C7_minute_already_named "2022-01-01-1234 a.png" 0 [] 0).2 rfl

/-- C8: every filename whose lower-cased form ends in `.jpeg` that reaches
composition produces a name ending in `.jpg` and never in `.jpeg` (the
override to extension `jpg` applies after the membership test). -/
theorem C8_jpeg_normalized (filename : String) (mtime : Nat)
    (content : List Nat) (cfg : Option Granularity) (tz : Int) (n : String)
    (hjpeg : strEndsWith (lowerStr filename) ".jpeg" = true)
    (hgen : generate_filename filename mtime content (.ok cfg) tz =
      .ok (some n)) :
    strEndsWith n ".jpg" = true ∧ strEndsWith n ".jpeg" = false := by
  obtain ⟨e, hx, hn⟩ := generate_filename_ok_some_inv hgen
  have hxe : extensionOf filename = some "jpg" := by
    simp [extensionOf, hjpeg]
  have he : e = "jpg" := by
    rw [hxe] at hx
    exact (Option.some.inj hx).symm
  subst he
  subst hn
  constructor
  · have hsfx : ".jpg".data <:+ (composeName (isMinuteGrain cfg) mtime content
        "jpg" tz).data := by
      rw [composeName_data]
      exact ⟨_, rfl⟩
    unfold strEndsWith
    exact List.isSuffixOf_iff_suffix.mpr hsfx
  · cases hEW : strEndsWith (composeName (isMinuteGrain cfg) mtime content
        "jpg" tz) ".jpeg" with
    | false => rfl
    | true =>
      exfalso
      have hs : ".jpeg".data <:+ (composeName (isMinuteGrain cfg) mtime content
          "jpg" tz).data := by
        unfold strEndsWith at hEW
        exact List.isSuffixOf_iff_suffix.mp hEW
      rw [composeName_data] at hs
      exact not_suffix_jpeg _ hs

/-- Witness for C8 at `photo.JPEG`, mtime 0, empty content. -/
theorem C8_witness :
    strEndsWith "1970-01-01-d41d8cd98f.jpg" ".jpg" = true ∧
    strEndsWith "1970-01-01-d41d8cd98f.jpg" ".jpeg" = false :=
  C8_jpeg_normalized "photo.JPEG" 0 [] none 0 "1970-01-01-d41d8cd98f.jpg" rfl
    rfl

/-- C9: every name the engine composes contains no space, and therefore
matches neither already-named prefix pattern (both demand a space after the
timestamp field), so a previously renamed file can only be recognized by
the exact-equality idempotence check. -/
theorem C9_generated_names_spaceless (filename : String) (mtime : Nat)
    (content : List Nat) (cfg : Option Granularity) (tz : Int) (n : String)
    (hgen : generate_filename filename mtime content (.ok cfg) tz =
      .ok (some n)) :
    ' ' ∉ n.data ∧ re_prefix_day_match n.data = false ∧
      re_prefix_minute_match n.data = false := by
  obtain ⟨e, hx, hn⟩ := generate_filename_ok_some_inv hgen
  have hgood : ∀ c ∈ n.data, goodChar c = true := by
    rw [hn]
    exact composeName_good (EXTENSIONS_good e (extensionOf_mem hx)) _ _ _ _
  have hsp : ' ' ∉ n.data := good_no_space hgood
  exact ⟨hsp, day_match_false_of_no_space hsp,
    minute_match_false_of_no_space hsp⟩

/-- Witness for C9 on the name composed for `a.png` at mtime 0. -/
theorem C9_witness :
    ' ' ∉ "1970-01-01-d41d8cd98f.png".data ∧
    re_prefix_day_match "1970-01-01-d41d8cd98f.png".data = false ∧
    re_prefix_minute_match "1970-01-01-d41d8cd98f.png".data = false :=
  C9_generated_names_spaceless "a.png" 0 [] none 0
    "1970-01-01-d41d8cd98f.png" rfl

/-- C10: when the queried directory does not exist or is not a directory
the resolver returns `None` and leaves the cache exactly as it was — no
entry is created for the target. -/
theorem C10_missing_dir_cache_unchanged (fs : FileSystem) (cache : ConfigCache)
    (target : DirPath) (hc : cache.lookup target = none)
    (hd : fs.isDir target = false) :
    get_directory_config fs cache target = .ok (none, cache) := by
  simp [get_directory_config, hc, hd]

/-- Witness for C10: a nonexistent `/b` queried against a nonempty cache. -/
theorem C10_witness :
    get_directory_config fsEmpty [(["a"], some Granularity.day)] ["b"] =
      .ok (none, [(["a"], some Granularity.day)]) :=
  C10_missing_dir_cache_unchanged fsEmpty [(["a"], some Granularity.day)]
    ["b"] rfl rfl

end Autorename
